import Mathlib

set_option maxRecDepth 100000

/-!
Verification development for the IntelliRoad repository.

The development shallowly embeds the integrity pipeline of the repository:

* the Solidity `AnchorRegistry` contract (`anchor` / `isAnchored` and the
  `Anchored` event) as an explicit state machine over a registry state;
* the canonical-JSON serialization used by both the React client
  (`JSON.stringify(\x7b lat, lng, timestamp, features \x7d)` in `App.tsx`) and the
  Express backend (same expression in the `POST /api/observations` handler);
* SHA-256 (the `crypto.subtle.digest('SHA-256', ...)` / node
  `crypto.createHash('sha256')` primitive) computed over the UTF-8 bytes of the
  canonical string, rendered as `0x`-prefixed lowercase hex;
* the zod `ObservationSchema` validation, the hash-verification gate and the
  SQLite-backed store of the backend (`POST /api/observations` and
  `GET /api/observations`).

JavaScript numbers are modelled as exact rationals `ℚ` (every finite IEEE-754
double is a rational; the handlers perform no arithmetic on them).  The
ECMA-262 `Number::toString` rendering used by `JSON.stringify` is fully
determined by the ECMA-262 standard and identical in the browser and in node;
it is carried as an explicit parameter `fmt : ℚ → String` and every theorem
holds for an arbitrary `fmt`.
-/

/-! ### AnchorRegistry (packages/contracts, `AnchorRegistry.sol`)

`mapping(bytes32 => bool) public isAnchored` is modelled as the list of
digests whose flag is `true` (all other digests implicitly map to `false`).
`bytes32` digests, addresses and timestamps are modelled as `Nat`; the
all-zero sentinel `bytes32(0)` is `0`.  Emitted `Anchored` events are
accumulated in an explicit event list. -/

/-- Payload of one `Anchored(bytes32 indexed hash, address indexed submitter, uint256 timestamp)` event. -/
structure AnchorEvent where
  hash : Nat
  submitter : Nat
  timestamp : Nat
deriving DecidableEq

/-- Contract storage plus the log of emitted events. -/
structure RegistryState where
  anchored : List Nat
  events : List AnchorEvent
deriving DecidableEq

/-- Deployment state: no digest anchored, no event emitted. -/
def initialRegistry : RegistryState := ⟨[], []⟩

/-- The two revert reasons of `AnchorRegistry.anchor`: `"EMPTY_HASH"` and `"ALREADY_ANCHORED"`. -/
inductive AnchorFailure where
  | emptyHash
  | alreadyAnchored
deriving DecidableEq

/-- Reading the public mapping `isAnchored` (a view call; it takes the state as
an argument and returns a `Bool`, so it cannot modify anything). -/
def isAnchored (st : RegistryState) (h : Nat) : Bool := st.anchored.contains h

/-- One `anchor(bytes32 hash)` call by `submitter` at ledger time `timestamp`.
`require(hash != bytes32(0), "EMPTY_HASH")`, then
`require(!isAnchored[hash], "ALREADY_ANCHORED")`, then the storage write and
the event emission.  A failed `require` reverts the whole call, which the
`Except` result captures: no partial state is ever produced. -/
def anchor (st : RegistryState) (h submitter timestamp : Nat) :
    Except AnchorFailure RegistryState :=
  if h = 0 then .error .emptyHash
  else if isAnchored st h then .error .alreadyAnchored
  else .ok ⟨h :: st.anchored, st.events ++ [⟨h, submitter, timestamp⟩]⟩

/-- An attempted `anchor` transaction (the only state-mutating entry point of the contract). -/
structure AnchorCall where
  hash : Nat
  submitter : Nat
  timestamp : Nat
deriving DecidableEq

/-- Ledger-level effect of a transaction: a reverted call leaves the state exactly as it was. -/
def execCall (st : RegistryState) (c : AnchorCall) : RegistryState :=
  match anchor st c.hash c.submitter c.timestamp with
  | .ok st' => st'
  | .error _ => st

/-- Run a serialized sequence of transactions (the ledger totally orders all calls). -/
def runCalls (st : RegistryState) (cs : List AnchorCall) : RegistryState :=
  cs.foldl execCall st

/-! ### Canonical JSON serialization (client `App.tsx` line 49–51, server line 327) -/

/-- Lowercase hex digit, as produced by `b.toString(16)` on the client and by
node's `digest('hex')` on the server. -/
def hexDigit (n : Nat) : Char := "0123456789abcdef".toList.getD n '0'

/-- JSON string escaping as specified by ECMA-262 `QuoteJSONString` (used by
`JSON.stringify` on both sides): `"` and `\` are backslash-escaped, the
control characters below `U+0020` use the two-character escapes or `\u00XX`,
every other Unicode scalar value is emitted literally. -/
def escChar (c : Char) : List Char :=
  if c = '"' then ['\\', '"']
  else if c = '\\' then ['\\', '\\']
  else if c = Char.ofNat 8 then ['\\', 'b']
  else if c = Char.ofNat 9 then ['\\', 't']
  else if c = Char.ofNat 10 then ['\\', 'n']
  else if c = Char.ofNat 12 then ['\\', 'f']
  else if c = Char.ofNat 13 then ['\\', 'r']
  else if c.toNat < 32 then ['\\', 'u', '0', '0', hexDigit (c.toNat / 16), hexDigit (c.toNat % 16)]
  else [c]

/-- A JSON string literal: quote, escaped characters, quote. -/
def jsonQuote (s : String) : String := ⟨'"' :: (s.toList.map escChar).flatten ++ ['"']⟩

/-- A JavaScript object property: missing from the object, present with value
`undefined`, or present with a value.  `JSON.stringify` emits a property only
in the last case. -/
inductive JsProp (α : Type) where
  | absent
  | undef
  | val (a : α)
deriving DecidableEq

/-- Forgets the distinction between a missing property and a property that is
present with value `undefined` (which is exactly what `JSON.stringify` does). -/
def jsPropToOption {α : Type} : JsProp α → Option α
  | .absent => none
  | .undef => none
  | .val a => some a

/-- A client-side `Feature` object (`App.tsx` line 5):
`\x7b type: string; confidence?: number; bbox?: [number, number, number, number] \x7d`.
The UI creates these as object literals with the properties in declaration
order `type`, `confidence`, `bbox`, and can set `confidence` to `undefined`
explicitly (`App.tsx` line 211). -/
structure JFeature where
  type : String
  confidence : JsProp ℚ
  bbox : JsProp (ℚ × ℚ × ℚ × ℚ)
deriving DecidableEq

/-- A zod-parsed `Feature` on the server (`FeatureSchema`).  The HTTP body is
JSON, which cannot carry `undefined`, so an optional field is simply present
or absent. -/
structure PFeature where
  type : String
  confidence : Option ℚ
  bbox : Option (ℚ × ℚ × ℚ × ℚ)
deriving DecidableEq

/-- Left and right brace as strings (the canonical form is JSON text). -/
def lb : String := "\x7b"

/-- Closing brace of a JSON object. -/
def rb : String := "\x7d"

/-- Serialization of one bbox tuple `[a,b,c,d]`. -/
def jsonBbox (fmt : ℚ → String) (t : ℚ × ℚ × ℚ × ℚ) : String :=
  "[" ++ fmt t.1 ++ "," ++ fmt t.2.1 ++ "," ++ fmt t.2.2.1 ++ "," ++ fmt t.2.2.2 ++ "]"

/-- `JSON.stringify` of a client feature object: properties in insertion order
`type`, `confidence`, `bbox`; properties whose value is `undefined` (and
missing properties) are omitted entirely. -/
def canonicalFeatureClient (fmt : ℚ → String) (f : JFeature) : String :=
  lb ++ "\"type\":" ++ jsonQuote f.type ++
  (match f.confidence with
   | .val c => ",\"confidence\":" ++ fmt c
   | _ => "") ++
  (match f.bbox with
   | .val t => ",\"bbox\":" ++ jsonBbox fmt t
   | _ => "") ++ rb

/-- `JSON.stringify` of a zod-parsed feature on the server (same shape; zod
reconstructs the object with its schema keys `type`, `confidence`, `bbox`). -/
def canonicalFeatureServer (fmt : ℚ → String) (f : PFeature) : String :=
  lb ++ "\"type\":" ++ jsonQuote f.type ++
  (match f.confidence with
   | some c => ",\"confidence\":" ++ fmt c
   | none => "") ++
  (match f.bbox with
   | some t => ",\"bbox\":" ++ jsonBbox fmt t
   | none => "") ++ rb

/-- Client canonical form (`App.tsx` line 49–51):
`JSON.stringify(\x7b lat, lng, timestamp, features \x7d)` with the properties in
insertion order `lat`, `lng`, `timestamp`, `features`. -/
def canonicalClient (fmt : ℚ → String) (lat lng : ℚ) (timestamp : String)
    (features : List JFeature) : String :=
  lb ++ "\"lat\":" ++ fmt lat ++ ",\"lng\":" ++ fmt lng ++
  ",\"timestamp\":" ++ jsonQuote timestamp ++
  ",\"features\":[" ++ String.intercalate "," (features.map (canonicalFeatureClient fmt)) ++
  "]" ++ rb

/-- Server canonical form (`POST /api/observations`, line 327): the same
`JSON.stringify(\x7b lat, lng, timestamp, features \x7d)` over the zod-parsed fields. -/
def canonicalServer (fmt : ℚ → String) (lat lng : ℚ) (timestamp : String)
    (features : List PFeature) : String :=
  lb ++ "\"lat\":" ++ fmt lat ++ ",\"lng\":" ++ fmt lng ++
  ",\"timestamp\":" ++ jsonQuote timestamp ++
  ",\"features\":[" ++ String.intercalate "," (features.map (canonicalFeatureServer fmt)) ++
  "]" ++ rb

/-- `JSON.stringify(features)` as stored in the `features_json` column (line 347). -/
def featuresJson (fmt : ℚ → String) (features : List PFeature) : String :=
  "[" ++ String.intercalate "," (features.map (canonicalFeatureServer fmt)) ++ "]"

/-! ### SHA-256 (FIPS 180-4), the primitive behind `crypto.subtle.digest('SHA-256', ...)`
and node's `crypto.createHash('sha256')`.  Words are `Nat` values reduced
modulo `2 ^ 32`. -/

/-- Word modulus `2 ^ 32`. -/
def pow32 : Nat := 4294967296

/-- Addition modulo `2 ^ 32`. -/
def add32 (a b : Nat) : Nat := (a + b) % pow32

/-- Rotate a word right by `n` bit positions (arithmetic formulation over `Nat`). -/
def rotr (n x : Nat) : Nat := (x / 2 ^ n + x * 2 ^ (32 - n)) % pow32

/-- Logical right shift. -/
def shr (n x : Nat) : Nat := x / 2 ^ n

/-- Bitwise complement of a 32-bit word. -/
def not32 (x : Nat) : Nat := 4294967295 - x

/-- Upper-case sigma function number zero. -/
def bsig0 (x : Nat) : Nat := rotr 2 x ^^^ rotr 13 x ^^^ rotr 22 x

/-- Upper-case sigma function number one. -/
def bsig1 (x : Nat) : Nat := rotr 6 x ^^^ rotr 11 x ^^^ rotr 25 x

/-- Lower-case sigma function number zero. -/
def ssig0 (x : Nat) : Nat := rotr 7 x ^^^ rotr 18 x ^^^ shr 3 x

/-- Lower-case sigma function number one. -/
def ssig1 (x : Nat) : Nat := rotr 17 x ^^^ rotr 19 x ^^^ shr 10 x

/-- The choose function of the compression loop. -/
def chF (x y z : Nat) : Nat := (x &&& y) ^^^ (not32 x &&& z)

/-- The majority-vote function of the compression loop. -/
def majF (x y z : Nat) : Nat := (x &&& y) ^^^ (x &&& z) ^^^ (y &&& z)

/-- The 64 round constants of FIPS 180-4 section 4.2.2, written in decimal. -/
def sha256K : List Nat :=
  [1116352408, 1899447441, 3049323471, 3921009573, 961987163, 1508970993,
   2453635748, 2870763221, 3624381080, 310598401, 607225278, 1426881987,
   1925078388, 2162078206, 2614888103, 3248222580, 3835390401, 4022224774,
   264347078, 604807628, 770255983, 1249150122, 1555081692, 1996064986,
   2554220882, 2821834349, 2952996808, 3210313671, 3336571891, 3584528711,
   113926993, 338241895, 666307205, 773529912, 1294757372, 1396182291,
   1695183700, 1986661051, 2177026350, 2456956037, 2730485921, 2820302411,
   3259730800, 3345764771, 3516065817, 3600352804, 4094571909, 275423344,
   430227734, 506948616, 659060556, 883997877, 958139571, 1322822218,
   1537002063, 1747873779, 1955562222, 2024104815, 2227730452, 2361852424,
   2428436474, 2756734187, 3204031479, 3329325298]

/-- The initial hash state of FIPS 180-4 section 5.3.3, written in decimal. -/
def sha256H0 : List Nat :=
  [1779033703, 3144134277, 1013904242, 2773480762,
   1359893119, 2600822924, 528734635, 1541459225]

/-- Merkle–Damgård padding: `0x80`, zeros up to 56 mod 64, 8-byte big-endian bit length. -/
def padMessage (msg : List Nat) : List Nat :=
  let L := msg.length
  let k := (119 - L % 64) % 64
  let bits := L * 8
  msg ++ [0x80] ++ List.replicate k 0 ++
    [bits / 2 ^ 56 % 256, bits / 2 ^ 48 % 256, bits / 2 ^ 40 % 256, bits / 2 ^ 32 % 256,
     bits / 2 ^ 24 % 256, bits / 2 ^ 16 % 256, bits / 2 ^ 8 % 256, bits % 256]

/-- Cuts the padded message into 64-byte blocks (fuel-driven structural recursion). -/
def toBlocksAux : Nat → List Nat → List (List Nat)
  | 0, _ => []
  | _, [] => []
  | n + 1, l => l.take 64 :: toBlocksAux n (l.drop 64)

/-- The list of 64-byte blocks of a padded message. -/
def toBlocks (l : List Nat) : List (List Nat) := toBlocksAux (l.length / 64 + 1) l

/-- Big-endian 4-byte groups to 32-bit words. -/
def toWords : List Nat → List Nat
  | a :: b :: c :: d :: rest => (a * 2 ^ 24 + b * 2 ^ 16 + c * 2 ^ 8 + d) :: toWords rest
  | _ => []

/-- Extends the 16 message words to the 64-entry message schedule. -/
def extendWords : Nat → List Nat → List Nat
  | 0, w => w
  | n + 1, w =>
    let i := w.length
    let nw := (ssig1 (w.getD (i - 2) 0) + w.getD (i - 7) 0 + ssig0 (w.getD (i - 15) 0) +
      w.getD (i - 16) 0) % pow32
    extendWords n (w ++ [nw])

/-- The eight working registers of the compression loop. -/
structure Regs where
  a : Nat
  b : Nat
  c : Nat
  d : Nat
  e : Nat
  f : Nat
  g : Nat
  h : Nat

/-- One compression round, consuming one `(constant, scheduled word)` pair. -/
def roundStep (r : Regs) (kw : Nat × Nat) : Regs :=
  let t1 := (r.h + bsig1 r.e + chF r.e r.f r.g + kw.1 + kw.2) % pow32
  let t2 := (bsig0 r.a + majF r.a r.b r.c) % pow32
  ⟨(t1 + t2) % pow32, r.a, r.b, r.c, add32 r.d t1, r.e, r.f, r.g⟩

/-- Compression of one 64-byte block into the running hash state. -/
def compress (hs : List Nat) (block : List Nat) : List Nat :=
  let w := extendWords 48 (toWords block)
  let r0 : Regs := ⟨hs.getD 0 0, hs.getD 1 0, hs.getD 2 0, hs.getD 3 0,
                    hs.getD 4 0, hs.getD 5 0, hs.getD 6 0, hs.getD 7 0⟩
  let r := (sha256K.zip w).foldl roundStep r0
  [add32 (hs.getD 0 0) r.a, add32 (hs.getD 1 0) r.b, add32 (hs.getD 2 0) r.c,
   add32 (hs.getD 3 0) r.d, add32 (hs.getD 4 0) r.e, add32 (hs.getD 5 0) r.f,
   add32 (hs.getD 6 0) r.g, add32 (hs.getD 7 0) r.h]

/-- SHA-256 of a byte list, as a list of 32 bytes. -/
def sha256Bytes (msg : List Nat) : List Nat :=
  let hs := (toBlocks (padMessage msg)).foldl compress sha256H0
  (hs.map fun w => [w / 2 ^ 24 % 256, w / 2 ^ 16 % 256, w / 2 ^ 8 % 256, w % 256]).flatten

/-- Lowercase hex rendering of a byte list. -/
def bytesToHex (l : List Nat) : String :=
  ⟨(l.map fun b => [hexDigit (b / 16), hexDigit (b % 16)]).flatten⟩

/-- UTF-8 encoding of one Unicode scalar value (what `TextEncoder` and node's
UTF-8 default produce). -/
def utf8Char (c : Char) : List Nat :=
  let n := c.toNat
  if n < 128 then [n]
  else if n < 2048 then [192 + n / 64, 128 + n % 64]
  else if n < 65536 then [224 + n / 4096, 128 + n / 64 % 64, 128 + n % 64]
  else [240 + n / 262144, 128 + n / 4096 % 64, 128 + n / 64 % 64, 128 + n % 64]

/-- UTF-8 bytes of a string. -/
def utf8 (s : String) : List Nat := (s.toList.map utf8Char).flatten

/-- `sha256Hex` as written identically on the client (`App.tsx` line 20–27)
and on the server (line 311–313): SHA-256 over the UTF-8 bytes, rendered as
lowercase hex behind the fixed `0x` marker. -/
def sha256Hex (s : String) : String := "0x" ++ bytesToHex (sha256Bytes (utf8 s))

/-! ### Backend (`apps/backend`, the Express handlers)

The JSON request body is modelled after `JSON.parse`: a property of the
payload object is either absent (`none`) or carries a value of the type the
schema expects.  (A property carrying a JSON value of the wrong type is
rejected by zod exactly like a missing required property; the model does not
distinguish the two rejected shapes.)  `zod`'s `safeParse` reports all issues
at once through `error.flatten()`; the model returns the first issue, which is
enough to settle every claim, none of which depends on the issue payload. -/

/-- A feature object of the inbound JSON body. -/
structure RawFeature where
  type : Option String
  confidence : Option ℚ
  bbox : Option (ℚ × ℚ × ℚ × ℚ)
deriving DecidableEq

/-- The inbound JSON body of `POST /api/observations`. -/
structure RawPayload where
  lat : Option ℚ
  lng : Option ℚ
  timestamp : Option String
  features : Option (List RawFeature)
  hashHex : Option String
deriving DecidableEq

/-- One hex character, upper or lower case (`[0-9a-fA-F]`). -/
def isHexChar (c : Char) : Bool := "0123456789abcdefABCDEF".toList.contains c

/-- The zod regex `^0x[0-9a-fA-F]\x7b64\x7d$` on `hashHex`. -/
def isHashHexFormat (s : String) : Bool :=
  match s.toList with
  | '0' :: 'x' :: rest => rest.length = 64 && rest.all isHexChar
  | _ => false

/-- The observation persisted after zod validation. -/
structure ParsedObs where
  lat : ℚ
  lng : ℚ
  timestamp : String
  features : List PFeature
  hashHex : String
deriving DecidableEq

/-- `FeatureSchema.safeParse`: `type` is a required string, `confidence` an
optional number clamped to `[0, 1]` by `.min(0).max(1)`, `bbox` an optional
4-tuple of numbers. -/
def parseFeature (f : RawFeature) : Except String PFeature :=
  match f.type with
  | none => .error "features.type: Required"
  | some t =>
    match f.confidence with
    | some c =>
      if c < 0 ∨ 1 < c then .error "features.confidence: out of range"
      else .ok ⟨t, some c, f.bbox⟩
    | none => .ok ⟨t, none, f.bbox⟩

/-- Elementwise validation of `z.array(FeatureSchema)`. -/
def parseFeatures : List RawFeature → Except String (List PFeature)
  | [] => .ok []
  | f :: fs =>
    match parseFeature f with
    | .error e => .error e
    | .ok pf =>
      match parseFeatures fs with
      | .error e => .error e
      | .ok pfs => .ok (pf :: pfs)

/-- `ObservationSchema.safeParse`: `lat`, `lng` required numbers, `timestamp`
a required string, `features` an array of features defaulting to `[]` when
absent, `hashHex` a required string matching the digest regex. -/
def parseObservation (p : RawPayload) : Except String ParsedObs :=
  match p.lat with
  | none => .error "lat: Required"
  | some lat =>
    match p.lng with
    | none => .error "lng: Required"
    | some lng =>
      match p.timestamp with
      | none => .error "timestamp: Required"
      | some ts =>
        match parseFeatures (p.features.getD []) with
        | .error e => .error e
        | .ok fs =>
          match p.hashHex with
          | none => .error "hashHex: Required"
          | some hh =>
            if isHashHexFormat hh then .ok ⟨lat, lng, ts, fs, hh⟩
            else .error "hashHex: Invalid"

/-- The three response shapes of `POST /api/observations`:
a 400 with the flattened zod issues, a 400 with the hash-mismatch message, or
a 200 echoing `id`, `createdAt` and the client-supplied `hashHex`. -/
inductive PostResult where
  | invalid (issue : String)
  | hashMismatch
  | saved (id createdAt hashHex : String)
deriving DecidableEq

/-- HTTP status of a `POST /api/observations` response. -/
def postStatus : PostResult → Nat
  | .invalid _ => 400
  | .hashMismatch => 400
  | .saved _ _ _ => 200

/-- The `ok` field of the response body. -/
def postOk : PostResult → Bool
  | .saved _ _ _ => true
  | _ => false

/-- The `error` field of the response body when it is a plain string.  The
mismatch branch responds with the literal
`'Hash mismatch (server recomputed a different value).'` (line 330); the
validation branch responds with the flattened zod issue object (represented
here by its first issue message); a success carries no `error` field. -/
def postErrorText : PostResult → Option String
  | .invalid e => some e
  | .hashMismatch => some "Hash mismatch (server recomputed a different value)."
  | .saved _ _ _ => none

/-- A row of the `observations` table (`db.ts`). -/
structure DbRow where
  id : String
  created_at : String
  lat : ℚ
  lng : ℚ
  timestamp : String
  features_json : String
  hash_hex : String
deriving DecidableEq

/-- JavaScript `String.prototype.toLowerCase()`; on the `0x`-prefixed hex
strings compared by the handler it lowercases exactly the letters `A`–`F`
(characterwise lowercasing of the underlying character list). -/
def jsToLower (s : String) : String := ⟨s.toList.map Char.toLower⟩

/-- The `POST /api/observations` handler (line 319–352): zod-validate, rebuild
the canonical string from the parsed fields, recompute the digest, compare
case-insensitively against the claimed `hashHex`, and only on success insert a
row (with a fresh `id` and the server clock `createdAt`) and respond 200.
Every failure leaves the table untouched. -/
def postObservations (fmt : ℚ → String) (db : List DbRow) (body : RawPayload)
    (newId createdAt : String) : PostResult × List DbRow :=
  match parseObservation body with
  | .error e => (.invalid e, db)
  | .ok p =>
    let canonical := canonicalServer fmt p.lat p.lng p.timestamp p.features
    let expected := sha256Hex canonical
    if jsToLower expected ≠ jsToLower p.hashHex then (.hashMismatch, db)
    else (.saved newId createdAt p.hashHex,
          db ++ [⟨newId, createdAt, p.lat, p.lng, p.timestamp,
                  featuresJson fmt p.features, p.hashHex⟩])

/-- The comparison `ORDER BY created_at DESC` sorts by: row `a` may precede
row `b` when `b.created_at ≤ a.created_at`.  `created_at` values are
`new Date().toISOString()` strings, whose lexicographic order (SQLite's BINARY
collation on their UTF-8 bytes) coincides with chronological order. -/
def byCreatedAtDesc (a b : DbRow) : Prop := b.created_at ≤ a.created_at

instance : DecidableRel byCreatedAtDesc :=
  fun a b => inferInstanceAs (Decidable (b.created_at ≤ a.created_at))

instance : IsTotal DbRow byCreatedAtDesc :=
  ⟨fun a b => le_total b.created_at a.created_at⟩

instance : IsTrans DbRow byCreatedAtDesc :=
  ⟨fun _ _ _ hab hbc => le_trans hbc hab⟩

/-- The result set of `SELECT ... ORDER BY created_at DESC` (any sort
satisfying the ordering; ties are broken arbitrarily by the engine). -/
def sqlOrderByCreatedAtDesc (db : List DbRow) : List DbRow :=
  List.insertionSort byCreatedAtDesc db

/-- SQLite `LIMIT k` semantics: a negative limit means no upper bound on the
number of returned rows; a nonnegative limit keeps the first `k` rows. -/
def sqlLimit (k : ℤ) (rows : List DbRow) : List DbRow :=
  if k < 0 then rows else rows.take k.toNat

/-- One record of the `GET /api/observations` response (line 365–373); the
`features` field is `JSON.parse` of the stored `features_json` column, carried
here in its serialized form. -/
structure ApiObservation where
  id : String
  createdAt : String
  lat : ℚ
  lng : ℚ
  timestamp : String
  featuresJson : String
  hashHex : String
deriving DecidableEq

/-- The snake-case to camel-case projection of line 365–373. -/
def rowToApi (r : DbRow) : ApiObservation :=
  ⟨r.id, r.created_at, r.lat, r.lng, r.timestamp, r.features_json, r.hash_hex⟩

/-- The `GET /api/observations` handler (line 354–376).  `limit` is the
numeric value of the query parameter (`50` when absent, via `|| 50`); the
handler computes `Math.min(limit, 200)` and hands it to `LIMIT ?`. -/
def getObservations (db : List DbRow) (limit : ℤ) : List ApiObservation :=
  (sqlLimit (min limit 200) (sqlOrderByCreatedAtDesc db)).map rowToApi

/-- The wire image of a client feature after `JSON.stringify`, HTTP transfer
and zod parsing: `undefined`-valued optional properties are dropped by
`JSON.stringify`, so only present values survive. -/
def clientToParsed (f : JFeature) : PFeature :=
  ⟨f.type, jsPropToOption f.confidence, jsPropToOption f.bbox⟩

/-- Shape-invalidity of an inbound payload as enumerated by the claim: a
missing required field, a feature with a missing `type` or a `confidence`
outside `[0, 1]`, or a `hashHex` failing the digest regex. -/
def shapeInvalid (p : RawPayload) : Bool :=
  p.lat.isNone || p.lng.isNone || p.timestamp.isNone || p.hashHex.isNone ||
  ((p.features.getD []).any fun f =>
    f.type.isNone ||
    (match f.confidence with
     | some c => decide (c < 0) || decide (1 < c)
     | none => false)) ||
  (match p.hashHex with
   | some h => !isHashHexFormat h
   | none => false)

/-- A digest string is `0x` followed by lowercase hex only. -/
def isLowerHex (s : String) : Bool :=
  match s.toList with
  | '0' :: 'x' :: rest => rest.all fun c => "0123456789abcdef".toList.contains c
  | _ => false

/-! ### Helper lemmas about the registry -/

/-- Effect of one transaction on the flag of a digest `d`: the flag is set
afterwards exactly when it was already set or the call anchored `d` itself
(which requires `d` to be nonzero). -/
theorem isAnchored_execCall (st : RegistryState) (c : AnchorCall) (d : Nat) :
    isAnchored (execCall st c) d = true ↔
      isAnchored st d = true ∨ (c.hash = d ∧ d ≠ 0) := by
  by_cases h0 : c.hash = 0
  · simp only [execCall, anchor, if_pos h0]
    constructor
    · exact Or.inl
    · rintro (h | ⟨h1, h2⟩)
      · exact h
      · exact absurd (h0.symm.trans h1).symm h2
  · by_cases ha : isAnchored st c.hash = true
    · simp only [execCall, anchor, if_neg h0, if_pos ha]
      constructor
      · exact Or.inl
      · rintro (h | ⟨rfl, _⟩)
        · exact h
        · exact ha
    · have ha' : ¬ (isAnchored st c.hash = true) := ha
      simp only [execCall, anchor, if_neg h0, if_neg ha']
      show isAnchored ⟨c.hash :: st.anchored, _⟩ d = true ↔ _
      simp only [isAnchored] at ha' ⊢
      simp at ha' ⊢
      constructor
      · rintro (rfl | hm)
        · exact Or.inr ⟨rfl, h0⟩
        · exact Or.inl hm
      · rintro (hm | ⟨rfl, _⟩)
        · exact Or.inr hm
        · exact Or.inl rfl

/-- Once set, a digest's flag survives any further transaction. -/
theorem isAnchored_execCall_mono (st : RegistryState) (c : AnchorCall) (d : Nat)
    (h : isAnchored st d = true) : isAnchored (execCall st c) d = true :=
  (isAnchored_execCall st c d).mpr (Or.inl h)

/-- Once set, a digest's flag survives any sequence of further transactions. -/
theorem isAnchored_runCalls_mono (cs : List AnchorCall) (st : RegistryState) (d : Nat)
    (h : isAnchored st d = true) : isAnchored (runCalls st cs) d = true := by
  induction cs generalizing st with
  | nil => exact h
  | cons c cs ih => exact ih (execCall st c) (isAnchored_execCall_mono st c d h)

/-- Characterization of the flag after a serialized sequence of transactions. -/
theorem isAnchored_runCalls (cs : List AnchorCall) (st : RegistryState) (d : Nat) :
    isAnchored (runCalls st cs) d = true ↔
      isAnchored st d = true ∨ (d ≠ 0 ∧ ∃ c ∈ cs, c.hash = d) := by
  induction cs generalizing st with
  | nil => simp [runCalls]
  | cons c cs ih =>
    show isAnchored (runCalls (execCall st c) cs) d = true ↔ _
    rw [ih]
    rw [isAnchored_execCall]
    constructor
    · rintro ((h | ⟨hc, hd⟩) | ⟨hd, c', hc', hh⟩)
      · exact Or.inl h
      · exact Or.inr ⟨hd, c, List.mem_cons_self c cs, hc⟩
      · exact Or.inr ⟨hd, c', List.mem_cons_of_mem c hc', hh⟩
    · rintro (h | ⟨hd, c', hc', hh⟩)
      · exact Or.inl (Or.inl h)
      · rcases List.mem_cons.mp hc' with rfl | hmem
        · exact Or.inl (Or.inr ⟨hh, hd⟩)
        · exact Or.inr ⟨hd, c', hmem, hh⟩

/-- In the deployment state no digest is anchored. -/
theorem isAnchored_initial (d : Nat) : isAnchored initialRegistry d = false := rfl

/-! ### Claims about the AnchorRegistry -/

/-- C1: for every digest `d` (nonzero and not yet anchored — any digest in any
state reachable before its first anchoring), the first `anchor(d)` call
succeeds, sets the `isAnchored` flag of `d`, and emits exactly one `Anchored`
event carrying `(d, submitter, timestamp)`; a second `anchor(d)` call reverts
with `ALREADY_ANCHORED` and leaves the state exactly as it was (the flag still
set, the event log not extended); and no sequence of further transactions can
ever reset the flag. -/
theorem anchor_twice_one_way (st : RegistryState) (d s t s' t' : Nat)
    (hd : d ≠ 0) (hna : isAnchored st d = false) :
    ∃ st₁, anchor st d s t = .ok st₁ ∧
      isAnchored st₁ d = true ∧
      st₁.events = st.events ++ [⟨d, s, t⟩] ∧
      anchor st₁ d s' t' = .error .alreadyAnchored ∧
      execCall st₁ ⟨d, s', t'⟩ = st₁ ∧
      ∀ cs, isAnchored (runCalls st₁ cs) d = true := by
  have hmem : isAnchored ⟨d :: st.anchored, st.events ++ [⟨d, s, t⟩]⟩ d = true := by
    simp [isAnchored]
  refine ⟨⟨d :: st.anchored, st.events ++ [⟨d, s, t⟩]⟩, ?_, hmem, rfl, ?_, ?_, ?_⟩
  · simp [anchor, hd, hna]
  · simp [anchor, hd, hmem]
  · simp [execCall, anchor, hd, hmem]
  · exact fun cs => isAnchored_runCalls_mono cs _ d hmem

/-- Witness for C1 at the deployment state with digest `5`. -/
theorem anchor_twice_one_way_witness :
    (5 : Nat) ≠ 0 ∧ isAnchored initialRegistry 5 = false ∧
    (∃ st₁, anchor initialRegistry 5 1 2 = .ok st₁ ∧
      isAnchored st₁ 5 = true ∧
      st₁.events = initialRegistry.events ++ [⟨5, 1, 2⟩] ∧
      anchor st₁ 5 3 4 = .error .alreadyAnchored ∧
      execCall st₁ ⟨5, 3, 4⟩ = st₁ ∧
      ∀ cs, isAnchored (runCalls st₁ cs) 5 = true) :=
  ⟨by decide, by decide, anchor_twice_one_way initialRegistry 5 1 2 3 4 (by decide) (by decide)⟩

/-- C2: in every registry state, `anchor` of the all-zero sentinel digest
reverts with `EMPTY_HASH` (the zero check precedes the already-anchored check,
so this holds regardless of prior state); every failed `anchor` call — for any
digest and either failure — leaves the whole registry state unchanged
(all-or-nothing); and the two failure conditions are distinct named
conditions. -/
theorem anchor_empty_hash_all_or_nothing (st : RegistryState) (s t : Nat)
    (c : AnchorCall) (e : AnchorFailure)
    (he : anchor st c.hash c.submitter c.timestamp = .error e) :
    anchor st 0 s t = .error .emptyHash ∧
    execCall st c = st ∧
    AnchorFailure.emptyHash ≠ AnchorFailure.alreadyAnchored := by
  refine ⟨by simp [anchor], ?_, by decide⟩
  unfold execCall
  rw [he]

/-- Witness for C2 at a state with digest `5` anchored, exercising the
`ALREADY_ANCHORED` failure. -/
theorem anchor_empty_hash_all_or_nothing_witness :
    anchor (runCalls initialRegistry [⟨5, 1, 2⟩]) 5 3 4 = .error .alreadyAnchored ∧
    (anchor (runCalls initialRegistry [⟨5, 1, 2⟩]) 0 9 9 = .error .emptyHash ∧
     execCall (runCalls initialRegistry [⟨5, 1, 2⟩]) ⟨5, 3, 4⟩ =
       runCalls initialRegistry [⟨5, 1, 2⟩] ∧
     AnchorFailure.emptyHash ≠ AnchorFailure.alreadyAnchored) :=
  ⟨by rfl, anchor_empty_hash_all_or_nothing _ 9 9 ⟨5, 3, 4⟩ .alreadyAnchored (by rfl)⟩

/-- C3: `isAnchored` is a view function (a pure function of the state — it is
modelled as such, so reading cannot change anything).  Starting from the
deployment state, `isAnchored d` is `true` after a transaction sequence
exactly when the sequence contains an `anchor(d)` call for a nonzero `d` — in
particular it is `false` in every state reachable before any successful
`anchor(d)` call (the first `anchor(d)` attempt on a nonzero, unanchored `d`
always succeeds, so a trace with no successful `anchor(d)` contains no
`anchor(d)` call at all) — and once it is `true` it stays `true` under every
extension of the trace. -/
theorem isAnchored_temporal (d : Nat) (cs₁ cs₂ : List AnchorCall) :
    (isAnchored (runCalls initialRegistry cs₁) d = true →
      isAnchored (runCalls initialRegistry (cs₁ ++ cs₂)) d = true) ∧
    (isAnchored (runCalls initialRegistry cs₁) d = true ↔
      d ≠ 0 ∧ ∃ c ∈ cs₁, c.hash = d) := by
  constructor
  · intro h
    show isAnchored (List.foldl execCall initialRegistry (cs₁ ++ cs₂)) d = true
    rw [List.foldl_append]
    exact isAnchored_runCalls_mono cs₂ _ d h
  · rw [isAnchored_runCalls]
    simp [isAnchored_initial]

/-- Witness for C3: digest `7` is unanchored on the empty trace, anchored
after `anchor(7)`, and still anchored after two further calls. -/
theorem isAnchored_temporal_witness :
    isAnchored (runCalls initialRegistry [⟨7, 1, 2⟩]) 7 = true ∧
    isAnchored (runCalls initialRegistry ([⟨7, 1, 2⟩] ++ [⟨9, 3, 4⟩, ⟨7, 5, 6⟩])) 7 = true ∧
    isAnchored (runCalls initialRegistry []) 7 = false := by
  have h := isAnchored_temporal 7 [⟨7, 1, 2⟩] [⟨9, 3, 4⟩, ⟨7, 5, 6⟩]
  have h1 : isAnchored (runCalls initialRegistry [⟨7, 1, 2⟩]) 7 = true :=
    h.2.mpr ⟨by decide, ⟨7, 1, 2⟩, by simp, rfl⟩
  exact ⟨h1, h.1 h1, by decide⟩

/-! ### Helper lemmas about the backend -/

/-- A feature list that zod accepts contains no feature with a missing `type`
or an out-of-range `confidence`. -/
theorem parseFeatures_ok_all (l : List RawFeature) (pfs : List PFeature)
    (h : parseFeatures l = .ok pfs) :
    ∀ f ∈ l, f.type.isNone = false ∧
      (match f.confidence with
       | some c => decide (c < 0) || decide (1 < c)
       | none => false) = false := by
  induction l generalizing pfs with
  | nil => intro f hf; cases hf
  | cons g gs ih =>
    intro f hf
    unfold parseFeatures at h
    rcases hg : parseFeature g with e | pg
    · rw [hg] at h; simp at h
    · rw [hg] at h
      rcases hgs : parseFeatures gs with e | pgs
      · rw [hgs] at h; simp at h
      · rcases List.mem_cons.mp hf with rfl | hmem
        · unfold parseFeature at hg
          rcases hft : f.type with _ | t
          · rw [hft] at hg; simp at hg
          · rw [hft] at hg
            simp only at hg
            rcases hfc : f.confidence with _ | c
            · simp [hft, hfc]
            · rw [hfc] at hg
              simp only at hg
              by_cases hr : c < 0 ∨ 1 < c
              · rw [if_pos hr] at hg; simp at hg
              · simp only [not_or] at hr
                simp [hft, hfc, hr.1, hr.2]
        · exact ih pgs hgs f hmem

/-- A payload that zod accepts is shape-valid, and the parsed `hashHex` is the
inbound `hashHex` string verbatim (the regex check neither rewrites nor
normalizes it). -/
theorem parseObservation_ok_shape (body : RawPayload) (p : ParsedObs)
    (h : parseObservation body = .ok p) :
    shapeInvalid body = false ∧ body.hashHex = some p.hashHex := by
  unfold parseObservation at h
  rcases hlat : body.lat with _ | lat
  · rw [hlat] at h; simp at h
  rw [hlat] at h
  rcases hlng : body.lng with _ | lng
  · rw [hlng] at h; simp at h
  rw [hlng] at h
  rcases hts : body.timestamp with _ | ts
  · rw [hts] at h; simp at h
  rw [hts] at h
  rcases hfs : parseFeatures (body.features.getD []) with e | fs
  · rw [hfs] at h; simp at h
  rw [hfs] at h
  rcases hhh : body.hashHex with _ | hh
  · rw [hhh] at h; simp at h
  rw [hhh] at h
  simp only at h
  by_cases hfmt : isHashHexFormat hh
  · rw [if_pos hfmt] at h
    simp only [Except.ok.injEq] at h
    subst h
    refine ⟨?_, rfl⟩
    unfold shapeInvalid
    rw [hlat, hlng, hts, hhh]
    simp only [Option.isNone_some, Bool.false_or, hfmt, Bool.not_true, Bool.or_false]
    rw [List.any_eq_false]
    intro f hf
    have hfacts := parseFeatures_ok_all _ _ hfs f hf
    intro hcontra
    rcases Bool.or_eq_true_iff.mp hcontra with h1 | h2
    · rw [hfacts.1] at h1; exact Bool.false_ne_true h1
    · rw [hfacts.2] at h2; exact Bool.false_ne_true h2
  · rw [if_neg hfmt] at h; simp at h

/-- Branch analysis of the `POST /api/observations` handler: it reports the
zod issues and keeps the table unchanged, or it reports the hash mismatch and
keeps the table unchanged, or the recomputed digest matches case-insensitively
and it appends exactly one row built from the parsed fields. -/
theorem postObservations_spec (fmt : ℚ → String) (db : List DbRow) (body : RawPayload)
    (newId createdAt : String) :
    (∃ e, parseObservation body = .error e ∧
      postObservations fmt db body newId createdAt = (.invalid e, db)) ∨
    ∃ p, parseObservation body = .ok p ∧
      ((jsToLower (sha256Hex (canonicalServer fmt p.lat p.lng p.timestamp p.features)) ≠
          jsToLower p.hashHex ∧
        postObservations fmt db body newId createdAt = (.hashMismatch, db)) ∨
       (jsToLower (sha256Hex (canonicalServer fmt p.lat p.lng p.timestamp p.features)) =
          jsToLower p.hashHex ∧
        postObservations fmt db body newId createdAt =
          (.saved newId createdAt p.hashHex,
           db ++ [⟨newId, createdAt, p.lat, p.lng, p.timestamp,
                   featuresJson fmt p.features, p.hashHex⟩]))) := by
  rcases hq : parseObservation body with e | p
  · exact Or.inl ⟨e, rfl, by simp [postObservations, hq]⟩
  · refine Or.inr ⟨p, rfl, ?_⟩
    by_cases hc : jsToLower (sha256Hex (canonicalServer fmt p.lat p.lng p.timestamp p.features)) =
        jsToLower p.hashHex
    · exact Or.inr ⟨hc, by simp [postObservations, hq, hc]⟩
    · exact Or.inl ⟨hc, by simp [postObservations, hq, hc]⟩

/-- Every record a `GET /api/observations` response can contain comes from a
row of the table. -/
theorem getObservations_subset (db : List DbRow) (n : ℤ) (r : ApiObservation)
    (hr : r ∈ getObservations db n) : r ∈ db.map rowToApi := by
  unfold getObservations at hr
  rcases List.mem_map.mp hr with ⟨row, hrow, rfl⟩
  refine List.mem_map_of_mem rowToApi ?_
  have h1 : row ∈ sqlOrderByCreatedAtDesc db := by
    unfold sqlLimit at hrow
    by_cases hk : min n 200 < 0
    · rw [if_pos hk] at hrow; exact hrow
    · rw [if_neg hk] at hrow; exact List.take_subset _ _ hrow
  exact (List.perm_insertionSort byCreatedAtDesc db).subset h1

/-- Every hex digit the digest renderer emits is a lowercase hex character. -/
theorem hexDigit_mem (n : Nat) :
    "0123456789abcdef".toList.contains (hexDigit n) = true := by
  unfold hexDigit
  rcases Nat.lt_or_ge n 16 with h | h
  · interval_cases n <;> decide
  · rw [List.getD_eq_default]
    · decide
    · simpa using h

/-- The digest strings `sha256Hex` produces are `0x` followed by lowercase hex
only (node's `digest('hex')` and the client's `toString(16)` both emit
lowercase). -/
theorem sha256Hex_lowercase (s : String) : isLowerHex (sha256Hex s) = true := by
  show isLowerHex ("0x" ++ bytesToHex (sha256Bytes (utf8 s))) = true
  have htl : ("0x" ++ bytesToHex (sha256Bytes (utf8 s))).toList =
      '0' :: 'x' :: (bytesToHex (sha256Bytes (utf8 s))).toList := rfl
  unfold isLowerHex
  rw [htl]
  show (bytesToHex (sha256Bytes (utf8 s))).toList.all
    (fun c => "0123456789abcdef".toList.contains c) = true
  rw [List.all_eq_true]
  intro c hc
  have hc' : c ∈ ((sha256Bytes (utf8 s)).map
      fun b => [hexDigit (b / 16), hexDigit (b % 16)]).flatten := hc
  rcases List.mem_flatten.mp hc' with ⟨l2, hl2, hcl2⟩
  rcases List.mem_map.mp hl2 with ⟨b, _, rfl⟩
  rcases List.mem_cons.mp hcl2 with rfl | h2
  · exact hexDigit_mem (b / 16)
  · rcases List.mem_cons.mp h2 with rfl | h3
    · exact hexDigit_mem (b % 16)
    · cases h3

/-! ### Claims about the backend -/

/-- C4: for every shape-valid submission whose claimed `hashHex` differs
(case-insensitively) from the digest the server recomputes over the canonical
form of the parsed fields, the handler answers with the distinguishable
mismatch result and the table is unchanged, so every later
`GET /api/observations` answer is unchanged and only ever shows rows of the
table; and conversely the table grows only for a submission whose recomputed
digest matches the claimed one case-insensitively. -/
theorem integrity_gate (fmt : ℚ → String) (db : List DbRow) (body : RawPayload)
    (newId createdAt : String) (p : ParsedObs)
    (hp : parseObservation body = .ok p)
    (hne : jsToLower (sha256Hex (canonicalServer fmt p.lat p.lng p.timestamp p.features)) ≠
      jsToLower p.hashHex) :
    postObservations fmt db body newId createdAt = (.hashMismatch, db) ∧
    (∀ n, getObservations (postObservations fmt db body newId createdAt).2 n =
      getObservations db n) ∧
    (∀ n r, r ∈ getObservations db n → r ∈ db.map rowToApi) ∧
    (∀ (body' : RawPayload) (id' c' : String),
      (postObservations fmt db body' id' c').2 ≠ db →
      ∃ q, parseObservation body' = .ok q ∧
        jsToLower (sha256Hex (canonicalServer fmt q.lat q.lng q.timestamp q.features)) =
          jsToLower q.hashHex) := by
  have hpost : postObservations fmt db body newId createdAt = (.hashMismatch, db) := by
    rcases postObservations_spec fmt db body newId createdAt with ⟨e, he, _⟩ | ⟨q, hq, hcase⟩
    · rw [hp] at he; cases he
    · rw [hp] at hq
      injection hq with hq
      subst hq
      rcases hcase with ⟨_, h⟩ | ⟨heq, _⟩
      · exact h
      · exact absurd heq hne
  refine ⟨hpost, fun n => by rw [hpost], fun n r hr => getObservations_subset db n r hr, ?_⟩
  intro body' id' c' hchanged
  rcases postObservations_spec fmt db body' id' c' with ⟨e, _, he⟩ | ⟨q, hq, hcase⟩
  · rw [he] at hchanged; exact absurd rfl hchanged
  · rcases hcase with ⟨_, h⟩ | ⟨heq, _⟩
    · rw [h] at hchanged; exact absurd rfl hchanged
    · exact ⟨q, hq, heq⟩

/-- C5: every shape-invalid payload — a missing required field, a feature
`confidence` outside `[0, 1]`, or a `hashHex` that is not a `0x`-prefixed
64-hex-character string — is rejected with the distinguishable validation
result and the table is unchanged; moreover the outcome is the same for every
number formatter, i.e. the rejection happens before the canonical form or its
digest is ever consulted (zod's `safeParse` runs first and the handler returns
on its failure). -/
theorem validation_gate (fmt : ℚ → String) (db : List DbRow) (body : RawPayload)
    (newId createdAt : String) (hinv : shapeInvalid body = true) :
    (∃ e, postObservations fmt db body newId createdAt = (.invalid e, db)) ∧
    (∀ fmt' : ℚ → String,
      postObservations fmt' db body newId createdAt =
        postObservations fmt db body newId createdAt) := by
  rcases hp : parseObservation body with e | p
  · refine ⟨⟨e, by simp [postObservations, hp]⟩, fun fmt' => ?_⟩
    simp [postObservations, hp]
  · have hvalid := (parseObservation_ok_shape body p hp).1
    rw [hinv] at hvalid
    cases hvalid

/-- C6 (amended): for every table state and every nonnegative requested limit
`N`, `GET /api/observations` returns at most 200 records (the enforced cap of
`Math.min(N, 200)`), ordered by creation instant most-recent-first.  The
nonnegativity restriction is forced by the counterexample: a negative `N`
passes `Math.min` unclamped and SQLite treats a negative `LIMIT` as
unbounded. -/
theorem listRecent_cap_and_order (db : List DbRow) (n : ℤ) (hn : 0 ≤ n) :
    (getObservations db n).length ≤ 200 ∧
    List.Pairwise (fun a b : ApiObservation => b.createdAt ≤ a.createdAt)
      (getObservations db n) := by
  constructor
  · unfold getObservations sqlLimit
    have hnn : ¬ min n 200 < 0 := by omega
    rw [if_neg hnn, List.length_map, List.length_take]
    have h2 : (min n 200).toNat ≤ 200 := by omega
    exact le_trans (Nat.min_le_left _ _) h2
  · have hs : List.Pairwise byCreatedAtDesc (sqlOrderByCreatedAtDesc db) :=
      List.sorted_insertionSort byCreatedAtDesc db
    have hs2 : List.Pairwise byCreatedAtDesc
        (sqlLimit (min n 200) (sqlOrderByCreatedAtDesc db)) := by
      unfold sqlLimit
      split
      · exact hs
      · exact List.Pairwise.sublist (List.take_sublist _ _) hs
    exact List.Pairwise.map rowToApi (fun a b h => h) hs2

/-- Witness for C6 (amended) at `N = 1000` over a two-row table. -/
theorem listRecent_cap_and_order_witness :
    (0 : ℤ) ≤ 1000 ∧
    ((getObservations [⟨"a", "2024-01-02", 0, 0, "t", "[]", "0x"⟩,
        ⟨"b", "2024-01-01", 0, 0, "t", "[]", "0x"⟩] 1000).length ≤ 200 ∧
     List.Pairwise (fun a b : ApiObservation => b.createdAt ≤ a.createdAt)
       (getObservations [⟨"a", "2024-01-02", 0, 0, "t", "[]", "0x"⟩,
          ⟨"b", "2024-01-01", 0, 0, "t", "[]", "0x"⟩] 1000)) :=
  ⟨by decide, listRecent_cap_and_order _ 1000 (by decide)⟩

/-- A table holding 201 rows, used to exhibit the missing lower clamp of the
requested limit. -/
def manyRows : List DbRow :=
  (List.range 201).map fun i => ⟨toString i, "T", 0, 0, "t", "[]", "0x"⟩

/-- Counterexample to C6 as stated: with 201 stored rows and requested limit
`-1` (a well-formed numeric query-string value), `Math.min(-1, 200) = -1`
reaches SQLite's `LIMIT`, which treats a negative limit as unbounded, so all
201 records come back and the enforced cap of 200 is exceeded. -/
theorem listRecent_cap_counterexample :
    (getObservations manyRows (-1)).length = 201 ∧
    ¬ (getObservations manyRows (-1)).length ≤ 200 := by
  have hperm := (List.perm_insertionSort byCreatedAtDesc manyRows).length_eq
  have hlen : (getObservations manyRows (-1)).length = 201 := by
    unfold getObservations sqlLimit
    rw [if_pos (by decide : min (-1 : ℤ) 200 < 0), List.length_map]
    unfold sqlOrderByCreatedAtDesc
    rw [hperm]
    simp [manyRows]
  exact ⟨hlen, by omega⟩

/-- C7: the canonical form emits only properties that carry a value; a client
feature with an optional property omitted and the same feature with that
property explicitly set to `undefined` produce byte-identical canonical JSON —
both for the feature object itself and for any whole observation containing
it — and therefore the same digest.  (The spec names the label field `kind`;
in the code it is `type`.) -/
theorem canonical_absent_eq_undefined (fmt : ℚ → String) (f g : JFeature)
    (ht : f.type = g.type)
    (hc : jsPropToOption f.confidence = jsPropToOption g.confidence)
    (hb : jsPropToOption f.bbox = jsPropToOption g.bbox) :
    canonicalFeatureClient fmt f = canonicalFeatureClient fmt g ∧
    ∀ (lat lng : ℚ) (ts : String) (pre post : List JFeature),
      canonicalClient fmt lat lng ts (pre ++ f :: post) =
        canonicalClient fmt lat lng ts (pre ++ g :: post) ∧
      sha256Hex (canonicalClient fmt lat lng ts (pre ++ f :: post)) =
        sha256Hex (canonicalClient fmt lat lng ts (pre ++ g :: post)) := by
  have hfg : canonicalFeatureClient fmt f = canonicalFeatureClient fmt g := by
    unfold canonicalFeatureClient
    rw [ht]
    rcases f with ⟨ft, fc, fb⟩
    rcases g with ⟨gt, gc, gb⟩
    cases fc <;> cases gc <;> cases fb <;> cases gb <;> simp_all [jsPropToOption]
  refine ⟨hfg, ?_⟩
  intro lat lng ts pre post
  have hcan : canonicalClient fmt lat lng ts (pre ++ f :: post) =
      canonicalClient fmt lat lng ts (pre ++ g :: post) := by
    unfold canonicalClient
    rw [List.map_append, List.map_append, List.map_cons, List.map_cons, hfg]
  exact ⟨hcan, by rw [hcan]⟩

/-- Witness for C7 at the spec's own pair: label `"a"` with `confidence`
omitted versus `confidence` explicitly `undefined`. -/
theorem canonical_absent_eq_undefined_witness :
    (⟨"a", .absent, .absent⟩ : JFeature).type = (⟨"a", .undef, .absent⟩ : JFeature).type ∧
    jsPropToOption (⟨"a", .absent, .absent⟩ : JFeature).confidence =
      jsPropToOption (⟨"a", .undef, .absent⟩ : JFeature).confidence ∧
    canonicalFeatureClient (fun _ => "1") ⟨"a", .absent, .absent⟩ =
      canonicalFeatureClient (fun _ => "1") ⟨"a", .undef, .absent⟩ ∧
    sha256Hex (canonicalClient (fun _ => "1") 1 1 "t" ([] ++ (⟨"a", .absent, .absent⟩ : JFeature) :: [])) =
      sha256Hex (canonicalClient (fun _ => "1") 1 1 "t" ([] ++ (⟨"a", .undef, .absent⟩ : JFeature) :: [])) := by
  have h := canonical_absent_eq_undefined (fun _ => "1")
    ⟨"a", .absent, .absent⟩ ⟨"a", .undef, .absent⟩ rfl rfl rfl
  exact ⟨rfl, rfl, h.1, (h.2 1 1 "t" [] []).2⟩

/-- C8: the client canonicalization and the server canonicalization of the
same observation fields are byte-for-byte identical (for every number
formatter — both sides call the ECMA-262-pinned `JSON.stringify`), hence
hashing them yields the same digest; both are pure functions, so any fixed
input (such as the worked example of the spec) always yields one fixed
digest. -/
theorem canonical_client_server_agree (fmt : ℚ → String) (lat lng : ℚ) (ts : String)
    (fs : List JFeature) :
    canonicalServer fmt lat lng ts (fs.map clientToParsed) =
      canonicalClient fmt lat lng ts fs ∧
    sha256Hex (canonicalServer fmt lat lng ts (fs.map clientToParsed)) =
      sha256Hex (canonicalClient fmt lat lng ts fs) := by
  have hf : ∀ f : JFeature,
      canonicalFeatureServer fmt (clientToParsed f) = canonicalFeatureClient fmt f := by
    intro f
    rcases f with ⟨ft, fc, fb⟩
    cases fc <;> cases fb <;> simp [canonicalFeatureServer, canonicalFeatureClient,
      clientToParsed, jsPropToOption]
  have h : canonicalServer fmt lat lng ts (fs.map clientToParsed) =
      canonicalClient fmt lat lng ts fs := by
    unfold canonicalServer canonicalClient
    rw [List.map_map]
    have hmap : List.map (canonicalFeatureServer fmt ∘ clientToParsed) fs =
        List.map (canonicalFeatureClient fmt) fs :=
      List.map_congr_left fun f _ => hf f
    rw [hmap]
  exact ⟨h, by rw [h]⟩

/-- The all-zero digest string: format-valid for the zod regex but (as the
witnesses check by computation) not the digest of the submitted payloads. -/
def zerosHash : String :=
  "0x0000000000000000000000000000000000000000000000000000000000000000"

/-- A shape-valid payload whose claimed digest does not match the recomputed one. -/
def mismatchBodyA : RawPayload := ⟨some 1, some 1, some "t", some [], some zerosHash⟩

/-- Witness for C4: a concrete shape-valid submission with a wrong claimed
digest is answered with the mismatch result and the empty table stays empty. -/
theorem integrity_gate_witness :
    parseObservation mismatchBodyA = .ok ⟨1, 1, "t", [], zerosHash⟩ ∧
    jsToLower (sha256Hex (canonicalServer (fun _ => "1") 1 1 "t" [])) ≠ jsToLower zerosHash ∧
    postObservations (fun _ => "1") [] mismatchBodyA "id" "now" = (.hashMismatch, []) := by
  have h1 : parseObservation mismatchBodyA = .ok ⟨1, 1, "t", [], zerosHash⟩ := rfl
  have h2 : jsToLower (sha256Hex (canonicalServer (fun _ => "1") 1 1 "t" [])) ≠
      jsToLower zerosHash := by decide
  exact ⟨h1, h2,
    (integrity_gate (fun _ => "1") [] mismatchBodyA "id" "now" ⟨1, 1, "t", [], zerosHash⟩ h1 h2).1⟩

/-- A payload with a feature `confidence` of `2`, outside `[0, 1]`. -/
def invalidBody : RawPayload :=
  ⟨some 1, some 1, some "t", some [⟨some "a", some 2, none⟩], some zerosHash⟩

/-- Witness for C5 at a concrete payload whose `confidence` is out of range. -/
theorem validation_gate_witness :
    shapeInvalid invalidBody = true ∧
    ((∃ e, postObservations (fun _ => "1") [] invalidBody "id" "now" = (.invalid e, [])) ∧
     (∀ fmt' : ℚ → String, postObservations fmt' [] invalidBody "id" "now" =
        postObservations (fun _ => "1") [] invalidBody "id" "now")) :=
  ⟨by decide, validation_gate (fun _ => "1") [] invalidBody "id" "now" (by decide)⟩

/-- C9 (amended): on an integrity mismatch the HTTP response has status 400,
`ok: false`, and the `error` field is the literal free-text message
`'Hash mismatch (server recomputed a different value).'` — not the string
`"hash mismatch"`, and not a structured machine-readable kind; the response
kinds differ only in status, `ok` flag and message text. -/
theorem mismatch_response (fmt : ℚ → String) (db : List DbRow) (body : RawPayload)
    (newId createdAt : String) (p : ParsedObs)
    (hp : parseObservation body = .ok p)
    (hne : jsToLower (sha256Hex (canonicalServer fmt p.lat p.lng p.timestamp p.features)) ≠
      jsToLower p.hashHex) :
    postStatus (postObservations fmt db body newId createdAt).1 = 400 ∧
    postOk (postObservations fmt db body newId createdAt).1 = false ∧
    postErrorText (postObservations fmt db body newId createdAt).1 =
      some "Hash mismatch (server recomputed a different value)." := by
  have hpost : (postObservations fmt db body newId createdAt).1 = .hashMismatch := by
    rcases postObservations_spec fmt db body newId createdAt with ⟨e, he, _⟩ | ⟨q, hq, hcase⟩
    · rw [hp] at he; cases he
    · rw [hp] at hq
      injection hq with hq
      subst hq
      rcases hcase with ⟨_, h⟩ | ⟨heq, _⟩
      · rw [h]
      · exact absurd heq hne
  rw [hpost]
  exact ⟨rfl, rfl, rfl⟩

/-- A second concrete mismatching payload, used to refute C9 as stated. -/
def mismatchBodyB : RawPayload := ⟨some 2, some 2, some "u", some [], some zerosHash⟩

/-- Counterexample to C9 as stated: at a concrete mismatching submission the
400 response's `error` field is the long free-text message, not the exact
string `"hash mismatch"` the claim requires. -/
theorem mismatch_response_counterexample :
    postErrorText (postObservations (fun _ => "1") [] mismatchBodyB "id" "now").1 =
      some "Hash mismatch (server recomputed a different value)." ∧
    postErrorText (postObservations (fun _ => "1") [] mismatchBodyB "id" "now").1 ≠
      some "hash mismatch" ∧
    postStatus (postObservations (fun _ => "1") [] mismatchBodyB "id" "now").1 = 400 := by
  have h : postObservations (fun _ => "1") [] mismatchBodyB "id" "now" = (.hashMismatch, []) := by
    decide
  rw [h]
  exact ⟨rfl, by decide, rfl⟩

/-- Witness for C9 (amended) at the same concrete mismatching submission. -/
theorem mismatch_response_witness :
    parseObservation mismatchBodyB = .ok ⟨2, 2, "u", [], zerosHash⟩ ∧
    jsToLower (sha256Hex (canonicalServer (fun _ => "1") 2 2 "u" [])) ≠ jsToLower zerosHash ∧
    (postStatus (postObservations (fun _ => "1") [] mismatchBodyB "id" "now").1 = 400 ∧
     postOk (postObservations (fun _ => "1") [] mismatchBodyB "id" "now").1 = false ∧
     postErrorText (postObservations (fun _ => "1") [] mismatchBodyB "id" "now").1 =
       some "Hash mismatch (server recomputed a different value).") := by
  have h1 : parseObservation mismatchBodyB = .ok ⟨2, 2, "u", [], zerosHash⟩ := rfl
  have h2 : jsToLower (sha256Hex (canonicalServer (fun _ => "1") 2 2 "u" [])) ≠
      jsToLower zerosHash := by decide
  exact ⟨h1, h2,
    mismatch_response (fun _ => "1") [] mismatchBodyB "id" "now" ⟨2, 2, "u", [], zerosHash⟩ h1 h2⟩

/-- C10: on a successful submission the digest persisted in the new row and
echoed in the 200 response is the client-supplied `hashHex` string verbatim
(its letter casing preserved — zod's regex check does not rewrite it), even
though `sha256Hex` itself only ever produces lowercase hex; the comparison is
case-insensitive, so an uppercase claimed digest can be accepted and stored
uppercase. -/
theorem stored_digest_verbatim (fmt : ℚ → String) (db : List DbRow) (body : RawPayload)
    (newId createdAt : String) (p : ParsedObs)
    (hp : parseObservation body = .ok p)
    (hmatch : jsToLower (sha256Hex (canonicalServer fmt p.lat p.lng p.timestamp p.features)) =
      jsToLower p.hashHex) :
    postObservations fmt db body newId createdAt =
      (.saved newId createdAt p.hashHex,
       db ++ [⟨newId, createdAt, p.lat, p.lng, p.timestamp,
               featuresJson fmt p.features, p.hashHex⟩]) ∧
    body.hashHex = some p.hashHex ∧
    (∀ s, isLowerHex (sha256Hex s) = true) := by
  refine ⟨?_, (parseObservation_ok_shape body p hp).2, sha256Hex_lowercase⟩
  rcases postObservations_spec fmt db body newId createdAt with ⟨e, he, _⟩ | ⟨q, hq, hcase⟩
  · rw [hp] at he; cases he
  · rw [hp] at hq
    injection hq with hq
    subst hq
    rcases hcase with ⟨hne, _⟩ | ⟨_, h⟩
    · exact absurd hmatch hne
    · exact h

/-- A shape-valid payload whose claimed digest is the correct digest of its
canonical form, but written in uppercase hex. -/
def upperBody : RawPayload :=
  ⟨some 3, some 4, some "t", some [],
   some "0xFA9027DEF283C79F4CC5F451257A1726D7117BC8ECD6594A04E8E2B93F0580D2"⟩

/-- Witness for C10: the uppercase claimed digest matches case-insensitively,
the submission is accepted, and the stored and echoed digest is the uppercase
string verbatim. -/
theorem stored_digest_verbatim_witness :
    parseObservation upperBody = .ok ⟨3, 4, "t", [],
      "0xFA9027DEF283C79F4CC5F451257A1726D7117BC8ECD6594A04E8E2B93F0580D2"⟩ ∧
    jsToLower (sha256Hex (canonicalServer (fun _ => "1") 3 4 "t" [])) =
      jsToLower "0xFA9027DEF283C79F4CC5F451257A1726D7117BC8ECD6594A04E8E2B93F0580D2" ∧
    postObservations (fun _ => "1") [] upperBody "id" "now" =
      (.saved "id" "now" "0xFA9027DEF283C79F4CC5F451257A1726D7117BC8ECD6594A04E8E2B93F0580D2",
       [] ++ [⟨"id", "now", 3, 4, "t", featuresJson (fun _ => "1") [],
               "0xFA9027DEF283C79F4CC5F451257A1726D7117BC8ECD6594A04E8E2B93F0580D2"⟩]) := by
  have h1 : parseObservation upperBody = .ok ⟨3, 4, "t", [],
      "0xFA9027DEF283C79F4CC5F451257A1726D7117BC8ECD6594A04E8E2B93F0580D2"⟩ := rfl
  have h2 : jsToLower (sha256Hex (canonicalServer (fun _ => "1") 3 4 "t" [])) =
      jsToLower "0xFA9027DEF283C79F4CC5F451257A1726D7117BC8ECD6594A04E8E2B93F0580D2" := by
    decide
  exact ⟨h1, h2,
    (stored_digest_verbatim (fun _ => "1") [] upperBody "id" "now" _ h1 h2).1⟩
